import Mathlib

/-!
Shallow embedding of the audio core of `paper-to-podcast` (`src/tools.py`):
the speech synthesizer `PodcastAudioGenerator._run` and the audio mixer
`PodcastMixer._run`.  External effects (the ElevenLabs provider, the file
system, pydub loading and exporting) are modelled by explicit oracles, and
Python string primitives (`str.strip`, `str` comparison, `sorted`,
`f"{i:03d}"` formatting) are embedded as executable Lean functions over
`List Char` (Python compares strings by code point, exactly as `Char` here).
-/

namespace PaperToPodcast

/-- Python `str` comparison (`<`) on code points, lexicographic. -/
def lexLt : List Char → List Char → Bool
  | [], [] => false
  | [], _ :: _ => true
  | _ :: _, [] => false
  | a :: as, b :: bs => if a < b then true else if b < a then false else lexLt as bs

/-- Python `<` on strings. -/
def strLt (a b : String) : Bool := lexLt a.data b.data

/-- The ASCII whitespace removed by Python `str.strip()` (the inputs here are
plain ASCII; the wider Unicode set is not needed). -/
def pyWhitespace (c : Char) : Bool :=
  c == ' ' || c == '\t' || c == '\n' || c == '\r' || c == '\x0b' || c == '\x0c'

/-- Python `str.strip()`: drop whitespace from both ends. -/
def pyStrip (s : String) : String :=
  String.mk (((s.data.dropWhile pyWhitespace).reverse.dropWhile pyWhitespace).reverse)

/-- Insert a string into a list, before the first strictly larger element. -/
def insertSorted (x : String) : List String → List String
  | [] => [x]
  | y :: ys => if strLt x y then x :: y :: ys else y :: insertSorted x ys

/-- Python `sorted` on a list of strings (insertion sort by `strLt`). -/
def pySorted : List String → List String
  | [] => []
  | x :: xs => insertSorted x (pySorted xs)

/-- The ASCII digit character for `d` (`0`–`9`). -/
def digitChar (d : Nat) : Char := Char.ofNat (48 + d)

/-- The three characters of `f"{n:03d}"` when `n < 1000`. -/
def pad3Chars (n : Nat) : List Char :=
  [digitChar (n / 100), digitChar (n / 10 % 10), digitChar (n % 10)]

/-- Python `f"{n:03d}"`: decimal, left-padded with zeros to width at least 3
(indices of 4 or more digits are printed unpadded and untruncated). -/
def pad3 (n : Nat) : String :=
  if n < 1000 then String.mk (pad3Chars n) else toString n

/-- `f"{self.output_dir}/{index:03d}_{speaker}.{self.audio_config.format}"`
(tools.py line 101). -/
def mkFilename (outDir : String) (i : Nat) (speaker fmt : String) : String :=
  outDir ++ "/" ++ pad3 i ++ "_" ++ speaker ++ "." ++ fmt

/-- `VoiceConfig` (tools.py lines 9–17); the numeric synthesis parameters are
carried as rationals (they are only passed through to the provider). -/
structure VoiceConfig where
  stability : ℚ := 0.45
  similarity_boost : ℚ := 0.85
  style : ℚ := 0.65
  use_speaker_boost : Bool := true
  model_id : String := "eleven_multilingual_v2"
  output_format : String := "mp3_44100_128"
  apply_text_normalization : String := "auto"

/-- `AudioConfig` (tools.py lines 19–27). -/
structure AudioConfig where
  format : String := "mp3"
  sample_rate : Nat := 48000
  channels : Nat := 2
  bitrate : String := "256k"
  normalize : Bool := true
  target_loudness : ℚ := -14.0
  compression_ratio : ℚ := 2.0

/-- One entry of `voice_configs` (tools.py lines 59–64):
`{"voice_id": voice_id, "config": config}`. -/
structure VoiceEntry where
  voice_id : String
  config : VoiceConfig

/-- One element of the `dialogue` list at runtime: either a plain dict with
`speaker`/`text` keys, or an instance of the `Dialogue` pydantic model
(tools.py lines 29–32), which has the same two fields but no `.get` method. -/
inductive Segment where
  | dict (speaker text : String)
  | model (speaker text : String)
  deriving DecidableEq

/-- Whether a segment is a plain dict. -/
def Segment.isDict : Segment → Bool
  | .dict _ _ => true
  | .model _ _ => false

/-- The message of the `AttributeError` Python raises when `.get` is called
on a `Dialogue` pydantic model instance. -/
def attrErrorMsg : String := "Dialogue object has no attribute get"

/-- `segment.get(key, default)` (tools.py lines 72–73): dict lookup with a
default; on a `Dialogue` model instance the attribute access itself raises. -/
def Segment.get : Segment → String → String → Except String String
  | .dict sp _, "speaker", _ => .ok sp
  | .dict _ tx, "text", _ => .ok tx
  | .dict _ _, _, dflt => .ok dflt
  | .model _ _, _, _ => .error attrErrorMsg

/-- Symbolic audio content, tracking what was done to the bytes of a clip. -/
inductive AudioData where
  | bytes (provider : Nat)
  | normalized (a : AudioData)
  | gained (db : Int) (a : AudioData)
  | exported (a : AudioData) (fmt bitrate : String) (sampleRate : Nat)
  deriving DecidableEq

/-- The file system: a map from path to current content, as an association
list whose head entry for a path is its content. -/
abbrev FS := List (String × AudioData)

/-- Writing a file: the path now maps to `d`, any previous entry is gone. -/
def writeFile (fs : FS) (p : String) (d : AudioData) : FS :=
  (p, d) :: List.filter (fun e => e.1 != p) fs

/-- Reading a file's current content. -/
def readFS (fs : FS) (p : String) : Option AudioData :=
  (List.find? (fun e => e.1 == p) fs).map (fun e => e.2)

/-- The external effects of one synthesizer line: the provider call
`client.text_to_speech.convert` (index, text, voice id ↦ audio bytes or a
provider error), and whether the raw file write, the pydub reload
(`AudioSegment.from_file`) and the normalized re-export succeed. -/
structure SynthEnv where
  convert : Nat → String → String → Except String Nat
  writeOk : Nat → Bool
  loadOk : Nat → Bool
  exportOk : Nat → Bool

/-- The result of a Python call: a returned value, or an uncaught exception. -/
inductive PyResult (α : Type) where
  | ok (val : α)
  | raised (msg : String)
  deriving DecidableEq

/-- The `try` block of one line (tools.py lines 84–125): provider call,
raw write to `filename`, then — when `audio_config.normalize` — reload,
`.normalize()`, `+ 4` dB, and re-export over the same path at the configured
bitrate and sample rate.  Any failure is caught by the `except` and the line
yields no path; the file system as modified so far is kept. -/
def processLine (cfg : AudioConfig) (env : SynthEnv) (outDir : String) (fs : FS)
    (i : Nat) (speaker : String) (vc : VoiceEntry) (text : String) :
    FS × Option String :=
  match env.convert i text vc.voice_id with
  | .error _ => (fs, none)
  | .ok b =>
    if env.writeOk i then
      let filename := mkFilename outDir i speaker cfg.format
      let fs1 := writeFile fs filename (.bytes b)
      if cfg.normalize then
        if env.loadOk i then
          match readFS fs1 filename with
          | none => (fs1, none)
          | some a =>
            let boosted := AudioData.gained 4 (.normalized a)
            if env.exportOk i then
              (writeFile fs1 filename
                (.exported boosted cfg.format cfg.bitrate cfg.sample_rate),
               some filename)
            else (fs1, none)
        else (fs1, none)
      else (fs1, some filename)
    else (fs, none)

/-- The loop of `PodcastAudioGenerator._run` (tools.py lines 70–127), with
the running index, file system and accumulated `audio_files`.  An
`AttributeError` from `segment.get` is raised outside the `try`, so it
aborts the whole batch. -/
def synthRunAux (cfg : AudioConfig) (voices : String → Option VoiceEntry)
    (env : SynthEnv) (outDir : String) :
    Nat → List Segment → FS → List String → PyResult (List String) × FS
  | _, [], fs, acc => (.ok (pySorted acc), fs)
  | i, seg :: rest, fs, acc =>
    match seg.get "speaker" "" with
    | .error e => (.raised e, fs)
    | .ok sp =>
      match seg.get "text" "" with
      | .error e => (.raised e, fs)
      | .ok tx =>
        let speaker := pyStrip sp
        let text := pyStrip tx
        if speaker = "" || text = "" then
          synthRunAux cfg voices env outDir (i + 1) rest fs acc
        else
          match voices speaker with
          | none => synthRunAux cfg voices env outDir (i + 1) rest fs acc
          | some vc =>
            match processLine cfg env outDir fs i speaker vc text with
            | (fs2, some fn) => synthRunAux cfg voices env outDir (i + 1) rest fs2 (acc ++ [fn])
            | (fs2, none) => synthRunAux cfg voices env outDir (i + 1) rest fs2 acc

/-- `PodcastAudioGenerator._run` (tools.py lines 66–127), started on an empty
file system with an empty `audio_files` accumulator; returns the Python
result (the sorted path list, or an uncaught exception) and the final file
system. -/
def PodcastAudioGenerator.run (cfg : AudioConfig) (voices : String → Option VoiceEntry)
    (env : SynthEnv) (outDir : String) (dialogue : List Segment) :
    PyResult (List String) × FS :=
  synthRunAux cfg voices env outDir 0 dialogue [] []

/-- The per-line outcome of the synthesizer on a dict segment at index `i`:
`some` of the persisted path when the line passes both validations and every
effect in its `try` block succeeds, `none` when it is skipped or fails. -/
def lineOutcome (cfg : AudioConfig) (voices : String → Option VoiceEntry)
    (env : SynthEnv) (outDir : String) (i : Nat) (seg : Segment) : Option String :=
  match seg with
  | .model _ _ => none
  | .dict sp tx =>
    let speaker := pyStrip sp
    let text := pyStrip tx
    if speaker = "" || text = "" then none
    else
      match voices speaker with
      | none => none
      | some vc =>
        match env.convert i text vc.voice_id with
        | .error _ => none
        | .ok _ =>
          if env.writeOk i then
            if cfg.normalize then
              if env.loadOk i && env.exportOk i then
                some (mkFilename outDir i speaker cfg.format)
              else none
            else some (mkFilename outDir i speaker cfg.format)
          else none

/-- The successfully persisted paths of a batch, in dialogue (index) order,
starting at index `i`. -/
def collect (cfg : AudioConfig) (voices : String → Option VoiceEntry)
    (env : SynthEnv) (outDir : String) : Nat → List Segment → List String
  | _, [] => []
  | i, seg :: rest =>
    match lineOutcome cfg voices env outDir i seg with
    | some fn => fn :: collect cfg voices env outDir (i + 1) rest
    | none => collect cfg voices env outDir (i + 1) rest

/-- The paths whose raw write happened for one segment: the line passed both
validations, the provider call returned, and the raw file write succeeded
(regardless of whether normalization later failed). -/
def lineWrites (cfg : AudioConfig) (voices : String → Option VoiceEntry)
    (env : SynthEnv) (outDir : String) (i : Nat) (seg : Segment) : List String :=
  match seg with
  | .model _ _ => []
  | .dict sp tx =>
    let speaker := pyStrip sp
    let text := pyStrip tx
    if speaker = "" || text = "" then []
    else
      match voices speaker with
      | none => []
      | some vc =>
        match env.convert i text vc.voice_id with
        | .error _ => []
        | .ok _ => if env.writeOk i then [mkFilename outDir i speaker cfg.format] else []

/-- All raw-written paths of a batch, starting at index `i`. -/
def writesOf (cfg : AudioConfig) (voices : String → Option VoiceEntry)
    (env : SynthEnv) (outDir : String) : Nat → List Segment → List String
  | _, [] => []
  | i, seg :: rest =>
    lineWrites cfg voices env outDir i seg ++ writesOf cfg voices env outDir (i + 1) rest

/-- A pydub `AudioSegment`, abstracted to its duration in milliseconds (the
only attribute the mixing algorithm depends on). -/
structure AudioSeg where
  duration : Nat
  deriving DecidableEq

/-- pydub `AudioSegment.append(seg, crossfade=…)`: with no crossfade the
segments are concatenated; a crossfade longer than either segment raises;
otherwise the durations overlap by the crossfade. -/
def AudioSeg.appendX (a b : AudioSeg) (crossfade : Nat) : Except String AudioSeg :=
  if crossfade = 0 then .ok ⟨a.duration + b.duration⟩
  else if a.duration < crossfade then
    .error "Crossfade is longer than the original AudioSegment"
  else if b.duration < crossfade then
    .error "Crossfade is longer than the appended AudioSegment"
  else .ok ⟨a.duration + b.duration - crossfade⟩

/-- The external effects of the mixer: loading a clip from a path
(`AudioSegment.from_file`, which may fail), and whether the final
`mixed.export` succeeds. -/
structure MixerEnv where
  load : String → Except String AudioSeg
  exportOk : Bool

/-- The loop of `PodcastMixer._run` (tools.py lines 151–156): for each
subsequent file, load it, prepend `AudioSegment.silent(duration=200)`, and
append it to the running mix with the configured crossfade. -/
def mixFold (env : MixerEnv) (crossfade : Nat) : AudioSeg → List String → Except String AudioSeg
  | mixed, [] => .ok mixed
  | mixed, f :: rest =>
    match env.load f with
    | .error e => .error e
    | .ok seg =>
      match mixed.appendX ⟨200 + seg.duration⟩ crossfade with
      | .error e => .error e
      | .ok mixed2 => mixFold env crossfade mixed2 rest

/-- `PodcastMixer._run` (tools.py lines 138–175).  An empty input list
raises `ValueError` before the `try` block, so it propagates; inside the
`try`, any load, append or export failure is caught and surfaced as the
empty-string result.  The second component is the exported output file
(path and audio), present exactly when the export happened. -/
def PodcastMixer.run (env : MixerEnv) (outDir : String) (audio_files : List String)
    (crossfade : Nat) : PyResult String × Option (String × AudioSeg) :=
  match audio_files with
  | [] => (.raised "No audio files provided to mix", none)
  | f :: rest =>
    match
      (match env.load f with
       | .error e => .error e
       | .ok first => mixFold env crossfade first rest : Except String AudioSeg) with
    | .error _ => (.ok "", none)
    | .ok mixed =>
      if env.exportOk then
        let output_file := outDir ++ "/podcast_final.mp3"
        (.ok output_file, some (output_file, mixed))
      else (.ok "", none)

/-- A load failure among the given paths. -/
def loadFailure (env : MixerEnv) (files : List String) : Prop :=
  ∃ f ∈ files, ∃ e, env.load f = .error e

/-- The observable part of a load oracle: per path, the loaded clip's
duration when loading succeeds, `none` when it fails. -/
def loadView (env : MixerEnv) (f : String) : Option Nat :=
  match env.load f with
  | .ok s => some s.duration
  | .error _ => none

section StringLemmas

lemma digitChar_lt_iff {d e : Nat} (hd : d < 10) (he : e < 10) :
    (digitChar d < digitChar e) ↔ d < e := by
  interval_cases d <;> interval_cases e <;> simp [digitChar]

lemma lexLt_cons_of_lt {a b : Char} (h : a < b) (as bs : List Char) :
    lexLt (a :: as) (b :: bs) = true := by
  simp [lexLt, h]

lemma lexLt_cons_self (a : Char) (as bs : List Char) :
    lexLt (a :: as) (a :: bs) = lexLt as bs := by
  simp [lexLt, lt_irrefl]

lemma lexLt_append_left {a b : List Char} (p : List Char) (h : lexLt a b = true) :
    lexLt (p ++ a) (p ++ b) = true := by
  induction p with
  | nil => simpa using h
  | cons x xs ih => simpa [lexLt_cons_self] using ih

lemma lexLt_pad3 {i j : Nat} (hij : i < j) (hj : j < 1000) (r s : List Char) :
    lexLt (pad3Chars i ++ r) (pad3Chars j ++ s) = true := by
  have hi : i < 1000 := Nat.lt_trans hij hj
  have h1le : i / 100 ≤ j / 100 := Nat.div_le_div_right (Nat.le_of_lt hij)
  rcases Nat.lt_or_eq_of_le h1le with h1 | h1
  · exact lexLt_cons_of_lt ((digitChar_lt_iff (by omega) (by omega)).2 h1) _ _
  · simp only [pad3Chars, List.cons_append, h1, lexLt_cons_self]
    have h2le : i / 10 % 10 ≤ j / 10 % 10 := by omega
    rcases Nat.lt_or_eq_of_le h2le with h2 | h2
    · exact lexLt_cons_of_lt ((digitChar_lt_iff (by omega) (by omega)).2 h2) _ _
    · simp only [h2, lexLt_cons_self]
      have h3 : i % 10 < j % 10 := by omega
      exact lexLt_cons_of_lt ((digitChar_lt_iff (by omega) (by omega)).2 h3) _ _

lemma strLt_mkFilename (outDir sp1 sp2 fmt1 fmt2 : String) {i j : Nat}
    (hij : i < j) (hj : j < 1000) :
    strLt (mkFilename outDir i sp1 fmt1) (mkFilename outDir j sp2 fmt2) = true := by
  have hi : i < 1000 := Nat.lt_trans hij hj
  have h1 : ∀ (k : Nat) (sp fmt : String), k < 1000 →
      (mkFilename outDir k sp fmt).data
        = (outDir.data ++ "/".data)
            ++ (pad3Chars k ++ ("_".data ++ (sp.data ++ (".".data ++ fmt.data)))) := by
    intro k sp fmt hk
    simp [mkFilename, String.data_append, pad3, hk, List.append_assoc]
  unfold strLt
  rw [h1 i sp1 fmt1 hi, h1 j sp2 fmt2 hj]
  exact lexLt_append_left _ (lexLt_pad3 hij hj _ _)

end StringLemmas

section SortLemmas

lemma insertSorted_length (x : String) (l : List String) :
    (insertSorted x l).length = l.length + 1 := by
  induction l with
  | nil => rfl
  | cons y ys ih => by_cases h : strLt x y = true <;> simp [insertSorted, h, ih]

lemma pySorted_length (l : List String) : (pySorted l).length = l.length := by
  induction l with
  | nil => rfl
  | cons x xs ih => simp [pySorted, insertSorted_length, ih]

lemma mem_insertSorted {p x : String} {l : List String} :
    p ∈ insertSorted x l ↔ p = x ∨ p ∈ l := by
  induction l with
  | nil => simp [insertSorted]
  | cons y ys ih =>
    by_cases h : strLt x y = true <;> simp [insertSorted, h, ih] <;> tauto

lemma mem_pySorted {p : String} {l : List String} : p ∈ pySorted l ↔ p ∈ l := by
  induction l with
  | nil => simp [pySorted]
  | cons x xs ih => simp [pySorted, mem_insertSorted, ih]

lemma pySorted_eq_self {l : List String} (h : l.Pairwise (fun a b => strLt a b = true)) :
    pySorted l = l := by
  induction l with
  | nil => rfl
  | cons x xs ih =>
    rw [pySorted, ih (List.Pairwise.of_cons h)]
    cases xs with
    | nil => rfl
    | cons y ys =>
      have hxy : strLt x y = true := (List.pairwise_cons.1 h).1 y (List.mem_cons_self _ _)
      simp [insertSorted, hxy]

end SortLemmas

section SynthLemmas

lemma readFS_writeFile_self (fs : FS) (p : String) (d : AudioData) :
    readFS (writeFile fs p d) p = some d := by
  simp [readFS, writeFile]

/-- What one line's `try` block returns, as a function of the oracles. -/
def tryOutcome (cfg : AudioConfig) (env : SynthEnv) (outDir : String)
    (i : Nat) (speaker : String) (vc : VoiceEntry) (text : String) : Option String :=
  match env.convert i text vc.voice_id with
  | .error _ => none
  | .ok _ =>
    if env.writeOk i then
      if cfg.normalize then
        if env.loadOk i && env.exportOk i then some (mkFilename outDir i speaker cfg.format)
        else none
      else some (mkFilename outDir i speaker cfg.format)
    else none

lemma processLine_snd (cfg : AudioConfig) (env : SynthEnv) (outDir : String) (fs : FS)
    (i : Nat) (speaker : String) (vc : VoiceEntry) (text : String) :
    (processLine cfg env outDir fs i speaker vc text).2
      = tryOutcome cfg env outDir i speaker vc text := by
  unfold processLine tryOutcome
  cases hc : env.convert i text vc.voice_id with
  | error e => rfl
  | ok b =>
    cases hw : env.writeOk i
    · simp
    · cases hn : cfg.normalize
      · simp
      · cases hl : env.loadOk i
        · simp
        · cases he : env.exportOk i <;>
            simp [readFS_writeFile_self]

lemma lineOutcome_dict (cfg : AudioConfig) (voices : String → Option VoiceEntry)
    (env : SynthEnv) (outDir : String) (i : Nat) (sp tx : String) :
    lineOutcome cfg voices env outDir i (.dict sp tx)
      = (if pyStrip sp = "" ∨ pyStrip tx = "" then none
         else match voices (pyStrip sp) with
           | none => none
           | some vc => tryOutcome cfg env outDir i (pyStrip sp) vc (pyStrip tx)) := by
  unfold lineOutcome tryOutcome
  by_cases hsp : pyStrip sp = "" <;> by_cases htx : pyStrip tx = "" <;>
    simp [hsp, htx]

lemma synthRunAux_fst (cfg : AudioConfig) (voices : String → Option VoiceEntry)
    (env : SynthEnv) (outDir : String) :
    ∀ (segs : List Segment) (i : Nat) (fs : FS) (acc : List String),
      (∀ seg ∈ segs, seg.isDict = true) →
      (synthRunAux cfg voices env outDir i segs fs acc).1
        = .ok (pySorted (acc ++ collect cfg voices env outDir i segs)) := by
  intro segs
  induction segs with
  | nil => intro i fs acc _; simp [synthRunAux, collect]
  | cons seg rest ih =>
    intro i fs acc hdict
    obtain ⟨sp, tx, rfl⟩ : ∃ sp tx, seg = .dict sp tx := by
      cases seg with
      | dict sp tx => exact ⟨sp, tx, rfl⟩
      | model sp tx => simpa [Segment.isDict] using hdict _ (List.mem_cons_self _ _)
    have hrest : ∀ s ∈ rest, s.isDict = true := fun s hs => hdict s (List.mem_cons_of_mem _ hs)
    rw [synthRunAux]
    simp only [Segment.get]
    rw [collect, lineOutcome_dict]
    by_cases hsp : pyStrip sp = ""
    · simpa [hsp] using ih (i + 1) fs acc hrest
    · by_cases htx : pyStrip tx = ""
      · simpa [hsp, htx] using ih (i + 1) fs acc hrest
      · simp only [hsp, htx, decide_eq_true_eq, Bool.or_eq_true, or_self, decide_eq_false_iff_not,
          not_false_eq_true, Bool.or_self, Bool.false_eq_true, if_false, ite_false, or_false,
          false_or, if_neg, decide_False]
        cases hv : voices (pyStrip sp) with
        | none => simpa [hv] using ih (i + 1) fs acc hrest
        | some vc =>
          simp only [hv]
          rcases hp : processLine cfg env outDir fs i (pyStrip sp) vc (pyStrip tx) with ⟨fs2, r⟩
          have hr : r = tryOutcome cfg env outDir i (pyStrip sp) vc (pyStrip tx) := by
            have := processLine_snd cfg env outDir fs i (pyStrip sp) vc (pyStrip tx)
            rw [hp] at this; exact this
          rw [← hr]
          cases r with
          | none => simpa using ih (i + 1) fs2 acc hrest
          | some fn =>
            have := ih (i + 1) fs2 (acc ++ [fn]) hrest
            simpa [List.append_assoc] using this

lemma mem_map_fst_writeFile {fs : FS} {q p : String} {d : AudioData} :
    p ∈ (writeFile fs q d).map Prod.fst ↔ p = q ∨ p ∈ fs.map Prod.fst := by
  simp only [writeFile, List.map_cons, List.mem_cons, List.mem_map, List.mem_filter,
    bne_iff_ne, ne_eq]
  constructor
  · rintro (rfl | ⟨e, ⟨he, hne⟩, rfl⟩)
    · exact Or.inl rfl
    · exact Or.inr ⟨e, he, rfl⟩
  · rintro (rfl | ⟨e, he, rfl⟩)
    · exact Or.inl rfl
    · by_cases hq : e.1 = q
      · exact Or.inl hq
      · exact Or.inr ⟨e, ⟨he, hq⟩, rfl⟩

lemma exists_mem_writeFile {fs : FS} {q p : String} {d : AudioData} :
    (∃ x, (p, x) ∈ writeFile fs q d) ↔ p = q ∨ ∃ x, (p, x) ∈ fs := by
  simp only [writeFile, List.mem_cons, List.mem_filter, Prod.mk.injEq, bne_iff_ne, ne_eq]
  constructor
  · rintro ⟨x, ⟨rfl, rfl⟩ | ⟨hx, _⟩⟩
    · exact Or.inl rfl
    · exact Or.inr ⟨x, hx⟩
  · rintro (rfl | ⟨x, hx⟩)
    · exact ⟨d, Or.inl ⟨rfl, rfl⟩⟩
    · by_cases hq : p = q
      · exact ⟨d, Or.inl ⟨hq, rfl⟩⟩
      · exact ⟨x, Or.inr ⟨hx, hq⟩⟩

/-- The paths raw-written by one line's `try` block. -/
def tryWrites (cfg : AudioConfig) (env : SynthEnv) (outDir : String)
    (i : Nat) (speaker : String) (vc : VoiceEntry) (text : String) : List String :=
  match env.convert i text vc.voice_id with
  | .error _ => []
  | .ok _ => if env.writeOk i then [mkFilename outDir i speaker cfg.format] else []

lemma processLine_fst_mem (cfg : AudioConfig) (env : SynthEnv) (outDir : String) (fs : FS)
    (i : Nat) (speaker : String) (vc : VoiceEntry) (text : String) (p : String) :
    p ∈ (processLine cfg env outDir fs i speaker vc text).1.map Prod.fst ↔
      p ∈ tryWrites cfg env outDir i speaker vc text ∨ p ∈ fs.map Prod.fst := by
  unfold processLine tryWrites
  cases hc : env.convert i text vc.voice_id with
  | error e => simp
  | ok b =>
    cases hw : env.writeOk i
    · simp
    · cases hn : cfg.normalize
      · simp [mem_map_fst_writeFile, exists_mem_writeFile]
      · cases hl : env.loadOk i
        · simp [mem_map_fst_writeFile, exists_mem_writeFile]
        · cases he : env.exportOk i <;>
            simp [readFS_writeFile_self, mem_map_fst_writeFile, exists_mem_writeFile] <;> tauto

lemma lineWrites_dict (cfg : AudioConfig) (voices : String → Option VoiceEntry)
    (env : SynthEnv) (outDir : String) (i : Nat) (sp tx : String) :
    lineWrites cfg voices env outDir i (.dict sp tx)
      = (if pyStrip sp = "" ∨ pyStrip tx = "" then []
         else match voices (pyStrip sp) with
           | none => []
           | some vc => tryWrites cfg env outDir i (pyStrip sp) vc (pyStrip tx)) := by
  unfold lineWrites tryWrites
  by_cases hsp : pyStrip sp = "" <;> by_cases htx : pyStrip tx = "" <;>
    simp [hsp, htx]

lemma synthRunAux_fs_mem (cfg : AudioConfig) (voices : String → Option VoiceEntry)
    (env : SynthEnv) (outDir : String) :
    ∀ (segs : List Segment) (i : Nat) (fs : FS) (acc : List String) (p : String),
      (∀ seg ∈ segs, seg.isDict = true) →
      (p ∈ (synthRunAux cfg voices env outDir i segs fs acc).2.map Prod.fst ↔
        p ∈ writesOf cfg voices env outDir i segs ∨ p ∈ fs.map Prod.fst) := by
  intro segs
  induction segs with
  | nil => intro i fs acc p _; simp [synthRunAux, writesOf]
  | cons seg rest ih =>
    intro i fs acc p hdict
    obtain ⟨sp, tx, rfl⟩ : ∃ sp tx, seg = .dict sp tx := by
      cases seg with
      | dict sp tx => exact ⟨sp, tx, rfl⟩
      | model sp tx => simpa [Segment.isDict] using hdict _ (List.mem_cons_self _ _)
    have hrest : ∀ s ∈ rest, s.isDict = true := fun s hs => hdict s (List.mem_cons_of_mem _ hs)
    rw [synthRunAux]
    simp only [Segment.get]
    rw [writesOf, lineWrites_dict]
    by_cases hsp : pyStrip sp = ""
    · simpa [hsp] using ih (i + 1) fs acc p hrest
    · by_cases htx : pyStrip tx = ""
      · simpa [hsp, htx] using ih (i + 1) fs acc p hrest
      · simp only [hsp, htx, decide_eq_true_eq, Bool.or_eq_true, or_self, decide_eq_false_iff_not,
          not_false_eq_true, Bool.or_self, Bool.false_eq_true, if_false, ite_false, or_false,
          false_or, if_neg, decide_False]
        cases hv : voices (pyStrip sp) with
        | none => simpa [hv] using ih (i + 1) fs acc p hrest
        | some vc =>
          simp only [List.nil_append]
          have hmem := processLine_fst_mem cfg env outDir fs i (pyStrip sp) vc (pyStrip tx) p
          rcases hp : processLine cfg env outDir fs i (pyStrip sp) vc (pyStrip tx) with ⟨fs2, r⟩
          rw [hp] at hmem
          cases r with
          | none =>
            rw [ih (i + 1) fs2 acc p hrest, hmem]
            simp [List.mem_append]
            tauto
          | some fn =>
            rw [ih (i + 1) fs2 (acc ++ [fn]) p hrest, hmem]
            simp [List.mem_append]
            tauto

lemma lineOutcome_mem_lineWrites (cfg : AudioConfig) (voices : String → Option VoiceEntry)
    (env : SynthEnv) (outDir : String) (i : Nat) (seg : Segment) (fn : String)
    (h : lineOutcome cfg voices env outDir i seg = some fn) :
    fn ∈ lineWrites cfg voices env outDir i seg := by
  cases seg with
  | model sp tx => simp [lineOutcome] at h
  | dict sp tx =>
    rw [lineOutcome_dict] at h
    rw [lineWrites_dict]
    by_cases hext : pyStrip sp = "" ∨ pyStrip tx = ""
    · simp [hext] at h
    · rw [if_neg hext] at h
      rw [if_neg hext]
      cases hv : voices (pyStrip sp) with
      | none => rw [hv] at h; exact Option.noConfusion h
      | some vc =>
        rw [hv] at h
        have h2 : tryOutcome cfg env outDir i (pyStrip sp) vc (pyStrip tx) = some fn := h
        show fn ∈ tryWrites cfg env outDir i (pyStrip sp) vc (pyStrip tx)
        unfold tryOutcome at h2
        unfold tryWrites
        cases hc : env.convert i (pyStrip tx) vc.voice_id with
        | error e => rw [hc] at h2; exact Option.noConfusion h2
        | ok b =>
          rw [hc] at h2
          cases hw : env.writeOk i
          · rw [hw] at h2; simp at h2
          · rw [hw] at h2
            cases hn : cfg.normalize
            · rw [hn] at h2
              simp only [Bool.false_eq_true, if_false, if_true, ite_true, ite_false] at h2
              have h3 := Option.some.inj h2
              subst h3
              simp
            · rw [hn] at h2
              simp only [if_true, ite_true] at h2
              cases hle : env.loadOk i && env.exportOk i
              · rw [hle] at h2; simp at h2
              · rw [hle] at h2
                simp only [if_true, ite_true] at h2
                have h3 := Option.some.inj h2
                subst h3
                simp

lemma collect_subset_writes (cfg : AudioConfig) (voices : String → Option VoiceEntry)
    (env : SynthEnv) (outDir : String) :
    ∀ (segs : List Segment) (i : Nat) (fn : String),
      fn ∈ collect cfg voices env outDir i segs → fn ∈ writesOf cfg voices env outDir i segs := by
  intro segs
  induction segs with
  | nil => intro i fn h; simp [collect] at h
  | cons seg rest ih =>
    intro i fn h
    rw [collect] at h
    rw [writesOf]
    cases ho : lineOutcome cfg voices env outDir i seg with
    | none =>
      rw [ho] at h
      exact List.mem_append_right _ (ih (i + 1) fn h)
    | some g =>
      rw [ho] at h
      rcases List.mem_cons.1 h with rfl | hr
      · exact List.mem_append_left _ (lineOutcome_mem_lineWrites _ _ _ _ _ _ _ ho)
      · exact List.mem_append_right _ (ih (i + 1) fn hr)

lemma collect_length_le (cfg : AudioConfig) (voices : String → Option VoiceEntry)
    (env : SynthEnv) (outDir : String) :
    ∀ (segs : List Segment) (i : Nat),
      (collect cfg voices env outDir i segs).length ≤ segs.length := by
  intro segs
  induction segs with
  | nil => intro i; simp [collect]
  | cons seg rest ih =>
    intro i
    rw [collect]
    cases lineOutcome cfg voices env outDir i seg with
    | none => exact Nat.le_succ_of_le (ih (i + 1))
    | some fn => simpa using Nat.succ_le_succ (ih (i + 1))

lemma lineOutcome_shape (cfg : AudioConfig) (voices : String → Option VoiceEntry)
    (env : SynthEnv) (outDir : String) (i : Nat) (seg : Segment) (fn : String)
    (h : lineOutcome cfg voices env outDir i seg = some fn) :
    ∃ sp, fn = mkFilename outDir i sp cfg.format := by
  cases seg with
  | model sp tx => simp [lineOutcome] at h
  | dict sp tx =>
    rw [lineOutcome_dict] at h
    by_cases hext : pyStrip sp = "" ∨ pyStrip tx = ""
    · simp [hext] at h
    · rw [if_neg hext] at h
      cases hv : voices (pyStrip sp) with
      | none => rw [hv] at h; exact Option.noConfusion h
      | some vc =>
        rw [hv] at h
        have h2 : tryOutcome cfg env outDir i (pyStrip sp) vc (pyStrip tx) = some fn := h
        unfold tryOutcome at h2
        refine ⟨pyStrip sp, ?_⟩
        cases hc : env.convert i (pyStrip tx) vc.voice_id with
        | error e => rw [hc] at h2; exact Option.noConfusion h2
        | ok b =>
          rw [hc] at h2
          cases hw : env.writeOk i
          · rw [hw] at h2; simp at h2
          · rw [hw] at h2
            cases hn : cfg.normalize
            · rw [hn] at h2
              simp only [Bool.false_eq_true, if_false, if_true, ite_true, ite_false] at h2
              exact (Option.some.inj h2).symm
            · rw [hn] at h2
              simp only [if_true, ite_true] at h2
              cases hle : env.loadOk i && env.exportOk i
              · rw [hle] at h2; simp at h2
              · rw [hle] at h2
                simp only [if_true, ite_true] at h2
                exact (Option.some.inj h2).symm

lemma collect_shape (cfg : AudioConfig) (voices : String → Option VoiceEntry)
    (env : SynthEnv) (outDir : String) :
    ∀ (segs : List Segment) (i : Nat), ∀ fn ∈ collect cfg voices env outDir i segs,
      ∃ k sp, i ≤ k ∧ k < i + segs.length ∧ fn = mkFilename outDir k sp cfg.format := by
  intro segs
  induction segs with
  | nil => intro i fn h; simp [collect] at h
  | cons seg rest ih =>
    intro i fn h
    rw [collect] at h
    cases ho : lineOutcome cfg voices env outDir i seg with
    | none =>
      rw [ho] at h
      obtain ⟨k, sp, hik, hk, hfn⟩ := ih (i + 1) fn h
      exact ⟨k, sp, by omega, by simpa using by omega, hfn⟩
    | some g =>
      rw [ho] at h
      rcases List.mem_cons.1 h with rfl | hr
      · obtain ⟨sp, hsp⟩ := lineOutcome_shape cfg voices env outDir i seg fn ho
        exact ⟨i, sp, le_refl i, by simp, hsp⟩
      · obtain ⟨k, sp, hik, hk, hfn⟩ := ih (i + 1) fn hr
        exact ⟨k, sp, by omega, by simp at hk ⊢; omega, hfn⟩

lemma collect_pairwise (cfg : AudioConfig) (voices : String → Option VoiceEntry)
    (env : SynthEnv) (outDir : String) :
    ∀ (segs : List Segment) (i : Nat), i + segs.length ≤ 1000 →
      (collect cfg voices env outDir i segs).Pairwise (fun a b => strLt a b = true) := by
  intro segs
  induction segs with
  | nil => intro i _; simp [collect]
  | cons seg rest ih =>
    intro i hbound
    rw [collect]
    cases ho : lineOutcome cfg voices env outDir i seg with
    | none => exact ih (i + 1) (by simp at hbound ⊢; omega)
    | some fn =>
      refine List.pairwise_cons.2 ⟨?_, ih (i + 1) (by simp at hbound ⊢; omega)⟩
      intro b hb
      obtain ⟨sp, hsp⟩ := lineOutcome_shape cfg voices env outDir i seg fn ho
      obtain ⟨k, sp2, hik, hk, hb2⟩ := collect_shape cfg voices env outDir rest (i + 1) b hb
      subst hsp; subst hb2
      refine strLt_mkFilename outDir sp sp2 cfg.format cfg.format (by omega) ?_
      simp at hbound hk
      omega

end SynthLemmas

section MixerLemmas

lemma appendX_ok {a b : AudioSeg} {c : Nat} (hca : c ≤ a.duration) (hcb : c ≤ b.duration) :
    a.appendX b c = .ok ⟨a.duration + b.duration - c⟩ := by
  unfold AudioSeg.appendX
  by_cases hc0 : c = 0
  · subst hc0; simp
  · rw [if_neg hc0, if_neg (by omega), if_neg (by omega)]

lemma sum_ge_length_mul {c : Nat} : ∀ {l : List Nat}, (∀ x ∈ l, c ≤ x) → l.length * c ≤ l.sum := by
  intro l
  induction l with
  | nil => intro _; simp
  | cons x xs ih =>
    intro h
    have hx : c ≤ x := h x (List.mem_cons_self _ _)
    have hs := ih (fun y hy => h y (List.mem_cons_of_mem _ hy))
    simp only [List.length_cons, List.sum_cons, Nat.succ_mul]
    omega

lemma mixFold_formula (env : MixerEnv) (c : Nat) (dur : String → Nat) :
    ∀ (rest : List String) (a : AudioSeg),
      (∀ g ∈ rest, env.load g = .ok ⟨dur g⟩) →
      (∀ g ∈ rest, c ≤ dur g) →
      c ≤ a.duration →
      mixFold env c a rest
        = .ok ⟨a.duration + (rest.map dur).sum + rest.length * 200 - rest.length * c⟩ := by
  intro rest
  induction rest with
  | nil => intro a _ _ _; simp [mixFold]
  | cons g rest ih =>
    intro a hload hc hca
    have hg : env.load g = .ok ⟨dur g⟩ := hload g (List.mem_cons_self _ _)
    have hcg : c ≤ dur g := hc g (List.mem_cons_self _ _)
    rw [mixFold]
    simp only [hg]
    have happ : a.appendX ⟨200 + dur g⟩ c = .ok ⟨a.duration + (200 + dur g) - c⟩ :=
      appendX_ok hca (by simp; omega)
    simp only [happ]
    rw [ih ⟨a.duration + (200 + dur g) - c⟩
        (fun x hx => hload x (List.mem_cons_of_mem _ hx))
        (fun x hx => hc x (List.mem_cons_of_mem _ hx))
        (by simp; omega)]
    have hX : rest.length * c ≤ (rest.map dur).sum := by
      have := sum_ge_length_mul (l := rest.map dur)
        (fun x hx => by
          obtain ⟨y, hy, rfl⟩ := List.mem_map.1 hx
          exact hc y (List.mem_cons_of_mem _ hy))
      simpa using this
    simp only [Except.ok.injEq, AudioSeg.mk.injEq, List.map_cons, List.sum_cons,
      List.length_cons, Nat.succ_mul]
    omega

lemma mixFold_ok_loads (env : MixerEnv) (c : Nat) :
    ∀ (rest : List String) (a m : AudioSeg), mixFold env c a rest = .ok m →
      ∀ g ∈ rest, ∃ s, env.load g = .ok s := by
  intro rest
  induction rest with
  | nil => intro a m _ g hg; simp at hg
  | cons f rest ih =>
    intro a m h g hg
    rw [mixFold] at h
    cases hl : env.load f with
    | error e => simp only [hl] at h; exact Except.noConfusion h
    | ok s =>
      simp only [hl] at h
      cases ha : a.appendX ⟨200 + s.duration⟩ c with
      | error e => simp only [ha] at h; exact Except.noConfusion h
      | ok m2 =>
        simp only [ha] at h
        rcases List.mem_cons.1 hg with rfl | hgr
        · exact ⟨s, hl⟩
        · exact ih m2 m h g hgr

/-- Any load failure among the inputs, or an export failure, makes the
mixer return the empty string and write nothing. -/
lemma mixRun_fail (env : MixerEnv) (outDir : String) (f : String) (rest : List String)
    (c : Nat) (hfail : loadFailure env (f :: rest) ∨ env.exportOk = false) :
    PodcastMixer.run env outDir (f :: rest) c = (.ok "", none) := by
  unfold PodcastMixer.run
  cases hl : env.load f with
  | error e => simp [hl]
  | ok first =>
    cases hm : mixFold env c first rest with
    | error e => simp [hl, hm]
    | ok mixed =>
      cases he : env.exportOk with
      | false => simp [hl, hm, he]
      | true =>
        exfalso
        rcases hfail with ⟨g, hg, e, hge⟩ | hexp
        · rcases List.mem_cons.1 hg with rfl | hgr
          · rw [hl] at hge; exact Except.noConfusion hge
          · obtain ⟨s, hs⟩ := mixFold_ok_loads env c rest first mixed hm g hgr
            rw [hs] at hge; exact Except.noConfusion hge
        · rw [he] at hexp; exact Bool.noConfusion hexp

lemma mixFold_congr (env1 env2 : MixerEnv) (c : Nat)
    (hload : ∀ f, loadView env1 f = loadView env2 f) :
    ∀ (rest : List String) (a : AudioSeg),
      (match mixFold env1 c a rest with
       | .ok m => some m
       | .error _ => none)
        = (match mixFold env2 c a rest with
           | .ok m => some m
           | .error _ => none) := by
  intro rest
  induction rest with
  | nil => intro a; simp [mixFold]
  | cons f rest ih =>
    intro a
    have hf := hload f
    rw [mixFold, mixFold]
    unfold loadView at hf
    cases h1 : env1.load f with
    | error e1 =>
      rw [h1] at hf
      cases h2 : env2.load f with
      | error e2 => rfl
      | ok s2 => rw [h2] at hf; exact Option.noConfusion hf
    | ok s1 =>
      rw [h1] at hf
      cases h2 : env2.load f with
      | error e2 => rw [h2] at hf; exact Option.noConfusion hf
      | ok s2 =>
        rw [h2] at hf
        have hs : s1 = s2 := by
          cases s1; cases s2
          simpa using Option.some.inj hf
        subst hs
        cases ha : a.appendX ⟨200 + s1.duration⟩ c with
        | error e => simp only [ha]
        | ok m2 => simp only [ha]; exact ih m2

lemma mixRun_congr (env1 env2 : MixerEnv) (outDir : String) (files : List String) (c : Nat)
    (hload : ∀ f, loadView env1 f = loadView env2 f)
    (hexp : env1.exportOk = env2.exportOk) :
    (PodcastMixer.run env1 outDir files c).2 = (PodcastMixer.run env2 outDir files c).2 := by
  cases files with
  | nil => rfl
  | cons f rest =>
    unfold PodcastMixer.run
    have hf := hload f
    unfold loadView at hf
    cases h1 : env1.load f with
    | error e1 =>
      simp only [h1] at hf
      cases h2 : env2.load f with
      | error e2 => simp [h1, h2]
      | ok s2 => simp only [h2] at hf; exact Option.noConfusion hf
    | ok s1 =>
      simp only [h1] at hf
      cases h2 : env2.load f with
      | error e2 => simp only [h2] at hf; exact Option.noConfusion hf
      | ok s2 =>
        simp only [h2] at hf
        have hs : s1 = s2 := by
          cases s1; cases s2
          simpa using hf
        subst hs
        have hcongr := mixFold_congr env1 env2 c hload rest s1
        cases hm1 : mixFold env1 c s1 rest with
        | error e =>
          simp only [hm1] at hcongr
          cases hm2 : mixFold env2 c s1 rest with
          | error e2 => simp [h1, h2, hm1, hm2]
          | ok m2 => simp only [hm2] at hcongr; exact Option.noConfusion hcongr
        | ok m1 =>
          simp only [hm1] at hcongr
          cases hm2 : mixFold env2 c s1 rest with
          | error e2 => simp only [hm2] at hcongr; exact Option.noConfusion hcongr
          | ok m2 =>
            simp only [hm2, Option.some.injEq] at hcongr
            subst hcongr
            simp [h1, h2, hm1, hm2, hexp]

lemma synthRun_fst (cfg : AudioConfig) (voices : String → Option VoiceEntry)
    (env : SynthEnv) (outDir : String) (dialogue : List Segment)
    (hdict : ∀ seg ∈ dialogue, seg.isDict = true) :
    (PodcastAudioGenerator.run cfg voices env outDir dialogue).1
      = .ok (pySorted (collect cfg voices env outDir 0 dialogue)) := by
  unfold PodcastAudioGenerator.run
  simpa using synthRunAux_fst cfg voices env outDir dialogue 0 [] [] hdict

end MixerLemmas

section Fixtures

/-- A registered voice used by the concrete witnesses. -/
def voiceA : VoiceEntry := { voice_id := "idA", config := {} }

/-- A registry with exactly the speaker `A`. -/
def voicesA : String → Option VoiceEntry := fun s => if s = "A" then some voiceA else none

/-- An audio configuration with normalization off. -/
def cfgPlain : AudioConfig := { normalize := false }

/-- The default audio configuration (normalization on). -/
def cfgNorm : AudioConfig := {}

/-- A synthesis environment where every external effect succeeds. -/
def envAllOk : SynthEnv :=
  { convert := fun i _ _ => .ok i, writeOk := fun _ => true,
    loadOk := fun _ => true, exportOk := fun _ => true }

/-- A synthesis environment whose normalization re-export fails. -/
def envExportFail : SynthEnv :=
  { convert := fun i _ _ => .ok i, writeOk := fun _ => true,
    loadOk := fun _ => true, exportOk := fun _ => false }

/-- A mixer environment loading every path as a 1000 ms clip. -/
def mixEnvOk : MixerEnv := { load := fun _ => .ok ⟨1000⟩, exportOk := true }

/-- A mixer environment loading every path as a 10 ms clip. -/
def mixEnvShort : MixerEnv := { load := fun _ => .ok ⟨10⟩, exportOk := true }

/-- A mixer environment whose loads all fail. -/
def mixEnvLoadFail : MixerEnv :=
  { load := fun _ => .error "could not read file", exportOk := true }

/-- A second all-loads-fail mixer environment with a different error text. -/
def mixEnvLoadFail2 : MixerEnv :=
  { load := fun _ => .error "decoder crashed", exportOk := true }

/-- A mixer environment whose export fails. -/
def mixEnvExportFail : MixerEnv := { load := fun _ => .ok ⟨1000⟩, exportOk := false }

/-- A 1001-line batch: 999 skipped lines (empty text) followed by two
successful lines at indices 999 and 1000. -/
def batch1001 : List Segment :=
  List.replicate 999 (Segment.dict "A" "") ++ [Segment.dict "A" "hi", Segment.dict "A" "hi"]

end Fixtures

section Claims

/-- C1 (amended): for every non-empty list of audio paths whose loads
succeed, whose export succeeds, and whose crossfade does not exceed any
clip's duration (the spec's own numeric-semantics constraint — a sufficient
condition, since each append compares the crossfade against the running mix
and against 200 ms + clip), the Mixer returns the single path
`{output_dir}/podcast_final.mp3` and writes there a file whose duration is
the sum of the n clip durations plus (n-1)*200 ms of silence minus
(n-1)*crossfade of overlap. -/
theorem mixer_duration_formula (env : MixerEnv) (outDir f : String) (rest : List String)
    (c : Nat) (dur : String → Nat)
    (hload : ∀ g ∈ f :: rest, env.load g = .ok ⟨dur g⟩)
    (hcross : ∀ g ∈ f :: rest, c ≤ dur g)
    (hexp : env.exportOk = true) :
    PodcastMixer.run env outDir (f :: rest) c
      = (.ok (outDir ++ "/podcast_final.mp3"),
         some (outDir ++ "/podcast_final.mp3",
           ⟨((f :: rest).map dur).sum + rest.length * 200 - rest.length * c⟩)) := by
  unfold PodcastMixer.run
  have hf : env.load f = .ok ⟨dur f⟩ := hload f (List.mem_cons_self _ _)
  simp only [hf]
  rw [mixFold_formula env c dur rest ⟨dur f⟩
      (fun g hg => hload g (List.mem_cons_of_mem _ hg))
      (fun g hg => hcross g (List.mem_cons_of_mem _ hg))
      (hcross f (List.mem_cons_self _ _))]
  simp [hexp]

/-- C1 witness: three 1000 ms clips mixed with the default 50 ms crossfade
satisfy the hypotheses and give a 3300 ms output. -/
theorem mixer_duration_formula_witness :
    (∀ g ∈ ["a.mp3", "b.mp3", "c.mp3"], mixEnvOk.load g = .ok ⟨1000⟩)
    ∧ (∀ g ∈ ["a.mp3", "b.mp3", "c.mp3"], 50 ≤ (fun _ => (1000 : Nat)) g)
    ∧ mixEnvOk.exportOk = true
    ∧ PodcastMixer.run mixEnvOk "output/podcast" ["a.mp3", "b.mp3", "c.mp3"] 50
        = (.ok "output/podcast/podcast_final.mp3",
           some ("output/podcast/podcast_final.mp3", ⟨3300⟩)) := by
  refine ⟨fun g _ => rfl, fun g _ => by norm_num, rfl, ?_⟩
  have h := mixer_duration_formula mixEnvOk "output/podcast" "a.mp3" ["b.mp3", "c.mp3"] 50
      (fun _ => 1000) (fun g _ => rfl) (fun g _ => by norm_num) rfl
  exact h

/-- C1 counterexample: with two 10 ms clips and a 300 ms crossfade, pydub's
append raises (300 exceeds both the 10 ms running mix and the 210 ms
silence+clip), the error is caught, and the Mixer returns the empty string
and writes no file at all — the claimed output file and duration formula do
not hold for every crossfade value. -/
theorem mixer_duration_formula_cex :
    PodcastMixer.run mixEnvShort "output/podcast" ["a.mp3", "b.mp3"] 300 = (.ok "", none) := by
  decide

/-- C2: on every dict-supplied batch, the synthesizer never raises: it
returns exactly the sorted per-line outcomes, where a line whose trimmed
speaker or text is empty, whose speaker is unregistered, or whose provider
call, raw write, reload or re-export fails contributes nothing, while every
other line at its own index contributes its path independently of earlier
failures; the returned list is never longer than the input batch. -/
theorem synth_line_failures_skipped (cfg : AudioConfig) (voices : String → Option VoiceEntry)
    (env : SynthEnv) (outDir : String) (dialogue : List Segment)
    (hdict : ∀ seg ∈ dialogue, seg.isDict = true) :
    (PodcastAudioGenerator.run cfg voices env outDir dialogue).1
        = .ok (pySorted (collect cfg voices env outDir 0 dialogue))
      ∧ (pySorted (collect cfg voices env outDir 0 dialogue)).length ≤ dialogue.length := by
  constructor
  · exact synthRun_fst cfg voices env outDir dialogue hdict
  · rw [pySorted_length]
    exact collect_length_le cfg voices env outDir dialogue 0

/-- C2 witness: a batch with one bad line (empty speaker) and one line for
an unregistered speaker between two good lines. -/
theorem synth_line_failures_skipped_witness :
    (∀ seg ∈ [Segment.dict "A" "hi", Segment.dict "" "x", Segment.dict "B" "y",
        Segment.dict "A" "bye"], seg.isDict = true)
    ∧ ((PodcastAudioGenerator.run cfgPlain voicesA envAllOk "out"
          [Segment.dict "A" "hi", Segment.dict "" "x", Segment.dict "B" "y",
           Segment.dict "A" "bye"]).1
        = .ok (pySorted (collect cfgPlain voicesA envAllOk "out" 0
            [Segment.dict "A" "hi", Segment.dict "" "x", Segment.dict "B" "y",
             Segment.dict "A" "bye"]))
       ∧ (pySorted (collect cfgPlain voicesA envAllOk "out" 0
            [Segment.dict "A" "hi", Segment.dict "" "x", Segment.dict "B" "y",
             Segment.dict "A" "bye"])).length
          ≤ ([Segment.dict "A" "hi", Segment.dict "" "x", Segment.dict "B" "y",
              Segment.dict "A" "bye"] : List Segment).length) :=
  ⟨by decide,
   synth_line_failures_skipped cfgPlain voicesA envAllOk "out"
     [Segment.dict "A" "hi", Segment.dict "" "x", Segment.dict "B" "y",
      Segment.dict "A" "bye"] (by decide)⟩

/-- C3 (amended): every successful line at input position i is persisted at
`{output_dir}/{i:03d}_{speaker}.{format}`, and for every dict batch of at
most 1000 lines the lexicographically sorted return list equals the
dialogue-order list of successful paths — the zero-padded index only
guarantees lexicographic order equals index order while indices stay below
1000. -/
theorem synth_sorted_equals_index_order (cfg : AudioConfig)
    (voices : String → Option VoiceEntry) (env : SynthEnv) (outDir : String)
    (dialogue : List Segment)
    (hdict : ∀ seg ∈ dialogue, seg.isDict = true)
    (hlen : dialogue.length ≤ 1000) :
    (PodcastAudioGenerator.run cfg voices env outDir dialogue).1
        = .ok (collect cfg voices env outDir 0 dialogue)
      ∧ ∀ fn ∈ collect cfg voices env outDir 0 dialogue,
          ∃ k sp, k < dialogue.length ∧ fn = mkFilename outDir k sp cfg.format := by
  constructor
  · rw [synthRun_fst cfg voices env outDir dialogue hdict,
      pySorted_eq_self (collect_pairwise cfg voices env outDir dialogue 0 (by omega))]
  · intro fn hfn
    obtain ⟨k, sp, _, hk, hfn2⟩ := collect_shape cfg voices env outDir dialogue 0 fn hfn
    exact ⟨k, sp, by omega, hfn2⟩

/-- C3 witness: a two-line batch for speaker `A`, returned in index order as
`out/000_A.mp3`, `out/001_A.mp3`. -/
theorem synth_sorted_equals_index_order_witness :
    (∀ seg ∈ [Segment.dict "A" "hi", Segment.dict "A" "yo"], seg.isDict = true)
    ∧ ([Segment.dict "A" "hi", Segment.dict "A" "yo"] : List Segment).length ≤ 1000
    ∧ ((PodcastAudioGenerator.run cfgPlain voicesA envAllOk "out"
          [Segment.dict "A" "hi", Segment.dict "A" "yo"]).1
        = .ok (collect cfgPlain voicesA envAllOk "out" 0
            [Segment.dict "A" "hi", Segment.dict "A" "yo"])
       ∧ ∀ fn ∈ collect cfgPlain voicesA envAllOk "out" 0
            [Segment.dict "A" "hi", Segment.dict "A" "yo"],
          ∃ k sp, k < ([Segment.dict "A" "hi", Segment.dict "A" "yo"] : List Segment).length
            ∧ fn = mkFilename "out" k sp cfgPlain.format) :=
  ⟨by decide, by decide,
   synth_sorted_equals_index_order cfgPlain voicesA envAllOk "out"
     [Segment.dict "A" "hi", Segment.dict "A" "yo"] (by decide) (by decide)⟩

set_option maxRecDepth 100000 in
/-- C3 counterexample: in a 1001-line batch whose successful lines sit at
indices 999 and 1000, the path of index 1000 (`1000_A.mp3`, four digits)
sorts lexicographically before the path of index 999, so the returned list
reverses the dialogue order of the successful lines. -/
theorem synth_sorted_equals_index_order_cex :
    (PodcastAudioGenerator.run cfgPlain voicesA envAllOk "out" batch1001).1
        = .ok [mkFilename "out" 1000 "A" "mp3", mkFilename "out" 999 "A" "mp3"]
      ∧ collect cfgPlain voicesA envAllOk "out" 0 batch1001
        = [mkFilename "out" 999 "A" "mp3", mkFilename "out" 1000 "A" "mp3"]
      ∧ mkFilename "out" 1000 "A" "mp3" ≠ mkFilename "out" 999 "A" "mp3" := by
  decide

/-- C4: mixing an empty path list raises the `ValueError` before any work
(the result does not depend on the environment) and writes no output file. -/
theorem mixer_empty_input_raises (env : MixerEnv) (outDir : String) (c : Nat) :
    PodcastMixer.run env outDir [] c = (.raised "No audio files provided to mix", none) := rfl

/-- C5 (amended): load or export failures on a non-empty input are signaled
by the empty-string result; an empty input list is instead signaled by the
raised `ValueError` — the raise sits before the `try`, so the empty-list
case is a raised fault, not an empty-string result. -/
theorem mixer_error_signaling (env : MixerEnv) (outDir : String) (files : List String)
    (c : Nat) :
    (files = [] →
      PodcastMixer.run env outDir files c = (.raised "No audio files provided to mix", none))
    ∧ (∀ f rest, files = f :: rest →
        loadFailure env files ∨ env.exportOk = false →
        PodcastMixer.run env outDir files c = (.ok "", none)) := by
  constructor
  · rintro rfl; rfl
  · rintro f rest rfl hfail
    exact mixRun_fail env outDir f rest c hfail

/-- C5 witness: a failing load on a one-clip input yields the empty string,
and the empty input yields the raise. -/
theorem mixer_error_signaling_witness :
    (([] : List String) = [])
    ∧ (loadFailure mixEnvLoadFail ["x.mp3"] ∨ mixEnvLoadFail.exportOk = false)
    ∧ PodcastMixer.run mixEnvLoadFail "output/podcast" [] 50
        = (.raised "No audio files provided to mix", none)
    ∧ PodcastMixer.run mixEnvLoadFail "output/podcast" ["x.mp3"] 50 = (.ok "", none) := by
  have hfail : loadFailure mixEnvLoadFail ["x.mp3"] ∨ mixEnvLoadFail.exportOk = false :=
    Or.inl ⟨"x.mp3", List.mem_singleton.2 rfl, "could not read file", rfl⟩
  exact ⟨rfl, hfail,
    (mixer_error_signaling mixEnvLoadFail "output/podcast" [] 50).1 rfl,
    (mixer_error_signaling mixEnvLoadFail "output/podcast" ["x.mp3"] 50).2
      "x.mp3" [] rfl hfail⟩

/-- C5 counterexample: on the empty input list the Mixer raises; it does not
return the empty string. -/
theorem mixer_error_signaling_cex :
    (PodcastMixer.run mixEnvOk "output/podcast" [] 50).1 ≠ .ok "" := by
  decide

/-- C6: on a non-empty input, any load failure among the inputs, or an
export failure, is caught inside the `try` and surfaced as the empty-string
result (with no output file) instead of propagating. -/
theorem mixer_catches_failures (env : MixerEnv) (outDir f : String) (rest : List String)
    (c : Nat) (hfail : loadFailure env (f :: rest) ∨ env.exportOk = false) :
    PodcastMixer.run env outDir (f :: rest) c = (.ok "", none) :=
  mixRun_fail env outDir f rest c hfail

/-- C6 witness: an export failure on a loadable one-clip input. -/
theorem mixer_catches_failures_witness :
    (loadFailure mixEnvExportFail ["a.mp3"] ∨ mixEnvExportFail.exportOk = false)
    ∧ PodcastMixer.run mixEnvExportFail "output/podcast" ["a.mp3"] 50 = (.ok "", none) :=
  ⟨Or.inr rfl,
   mixer_catches_failures mixEnvExportFail "output/podcast" "a.mp3" [] 50 (Or.inr rfl)⟩

/-- C7: when normalization is on and every step of a line succeeds, the line
returns its path and the file at that path holds the reloaded clip,
normalized, boosted by +4 dB, re-exported over the same path at the
configured format, bitrate and sample rate. -/
theorem synth_normalization_pipeline (cfg : AudioConfig) (env : SynthEnv) (outDir : String)
    (fs : FS) (i : Nat) (speaker : String) (vc : VoiceEntry) (text : String) (b : Nat)
    (hn : cfg.normalize = true)
    (hc : env.convert i text vc.voice_id = .ok b)
    (hw : env.writeOk i = true) (hl : env.loadOk i = true) (he : env.exportOk i = true) :
    (processLine cfg env outDir fs i speaker vc text).2
        = some (mkFilename outDir i speaker cfg.format)
      ∧ readFS (processLine cfg env outDir fs i speaker vc text).1
            (mkFilename outDir i speaker cfg.format)
          = some (.exported (.gained 4 (.normalized (.bytes b)))
              cfg.format cfg.bitrate cfg.sample_rate) := by
  unfold processLine
  simp [hc, hw, hn, hl, he, readFS_writeFile_self]

/-- C7 witness: a single successful line under the default (normalizing)
configuration. -/
theorem synth_normalization_pipeline_witness :
    cfgNorm.normalize = true
    ∧ envAllOk.convert 0 "hi" voiceA.voice_id = .ok 0
    ∧ envAllOk.writeOk 0 = true
    ∧ envAllOk.loadOk 0 = true
    ∧ envAllOk.exportOk 0 = true
    ∧ ((processLine cfgNorm envAllOk "out" [] 0 "A" voiceA "hi").2
          = some (mkFilename "out" 0 "A" cfgNorm.format)
       ∧ readFS (processLine cfgNorm envAllOk "out" [] 0 "A" voiceA "hi").1
            (mkFilename "out" 0 "A" cfgNorm.format)
          = some (.exported (.gained 4 (.normalized (.bytes 0)))
              cfgNorm.format cfgNorm.bitrate cfgNorm.sample_rate)) :=
  ⟨rfl, rfl, rfl, rfl, rfl,
   synth_normalization_pipeline cfgNorm envAllOk "out" [] 0 "A" voiceA "hi" 0
     rfl rfl rfl rfl rfl⟩

/-- C8 (amended): over a dict batch the files on disk afterwards are exactly
the raw-written paths — one per line that passed validation and whose
provider call and raw write succeeded — and every returned path is among
them; but a line that fails during normalization keeps its raw file while
returning nothing, so the disk may hold strictly more files than the
returned list. -/
theorem synth_fs_writes (cfg : AudioConfig) (voices : String → Option VoiceEntry)
    (env : SynthEnv) (outDir : String) (dialogue : List Segment)
    (hdict : ∀ seg ∈ dialogue, seg.isDict = true) :
    (∀ p, p ∈ (PodcastAudioGenerator.run cfg voices env outDir dialogue).2.map Prod.fst
        ↔ p ∈ writesOf cfg voices env outDir 0 dialogue)
    ∧ ∀ l, (PodcastAudioGenerator.run cfg voices env outDir dialogue).1 = .ok l →
        ∀ fn ∈ l, fn ∈ writesOf cfg voices env outDir 0 dialogue := by
  constructor
  · intro p
    have h := synthRunAux_fs_mem cfg voices env outDir dialogue 0 [] [] p hdict
    simpa [PodcastAudioGenerator.run] using h
  · intro l hl fn hfn
    have h1 := synthRun_fst cfg voices env outDir dialogue hdict
    rw [h1] at hl
    have h2 : l = pySorted (collect cfg voices env outDir 0 dialogue) :=
      (PyResult.ok.inj hl).symm
    subst h2
    exact collect_subset_writes cfg voices env outDir dialogue 0 fn (mem_pySorted.1 hfn)

/-- C8 witness: a batch with a skipped line and a successful line, whose
disk state matches the write characterization. -/
theorem synth_fs_writes_witness :
    (∀ seg ∈ [Segment.dict "" "x", Segment.dict "A" "hi"], seg.isDict = true)
    ∧ (∀ p, p ∈ (PodcastAudioGenerator.run cfgPlain voicesA envAllOk "out"
          [Segment.dict "" "x", Segment.dict "A" "hi"]).2.map Prod.fst
        ↔ p ∈ writesOf cfgPlain voicesA envAllOk "out" 0
            [Segment.dict "" "x", Segment.dict "A" "hi"])
    ∧ ∀ l, (PodcastAudioGenerator.run cfgPlain voicesA envAllOk "out"
          [Segment.dict "" "x", Segment.dict "A" "hi"]).1 = .ok l →
        ∀ fn ∈ l, fn ∈ writesOf cfgPlain voicesA envAllOk "out" 0
            [Segment.dict "" "x", Segment.dict "A" "hi"] :=
  ⟨by decide,
   (synth_fs_writes cfgPlain voicesA envAllOk "out"
      [Segment.dict "" "x", Segment.dict "A" "hi"] (by decide)).1,
   (synth_fs_writes cfgPlain voicesA envAllOk "out"
      [Segment.dict "" "x", Segment.dict "A" "hi"] (by decide)).2⟩

/-- C8 counterexample: one line whose provider call and raw write succeed
but whose normalization re-export fails returns no path, yet its raw file
`out/000_A.mp3` remains on disk — the persisted files do not correspond
exactly to the returned list. -/
theorem synth_fs_writes_cex :
    (PodcastAudioGenerator.run cfgNorm voicesA envExportFail "out" [Segment.dict "A" "hi"]).1
        = .ok []
      ∧ (PodcastAudioGenerator.run cfgNorm voicesA envExportFail "out"
          [Segment.dict "A" "hi"]).2.map Prod.fst = ["out/000_A.mp3"]
      ∧ (["out/000_A.mp3"] : List String) ≠ [] := by
  decide

/-- C9: a batch whose first element is a `Dialogue` pydantic model instance
(rather than a plain dict) aborts immediately: `segment.get` raises an
`AttributeError` outside the per-line `try`, no line is processed, nothing
is written, and the whole batch raises. -/
theorem synth_model_instance_aborts (cfg : AudioConfig)
    (voices : String → Option VoiceEntry) (env : SynthEnv) (outDir : String)
    (sp tx : String) (rest : List Segment) :
    PodcastAudioGenerator.run cfg voices env outDir (Segment.model sp tx :: rest)
      = (.raised attrErrorMsg, []) := rfl

/-- C10: the mixed output file (path and duration) is a function of the
loaded durations and the export outcome alone: two runs whose load oracles
agree on every path's duration and whose export outcomes agree produce the
same output file. -/
theorem mixer_duration_deterministic (env1 env2 : MixerEnv) (outDir : String)
    (files : List String) (c : Nat)
    (hload : ∀ f, loadView env1 f = loadView env2 f)
    (hexp : env1.exportOk = env2.exportOk) :
    (PodcastMixer.run env1 outDir files c).2 = (PodcastMixer.run env2 outDir files c).2 :=
  mixRun_congr env1 env2 outDir files c hload hexp

/-- C10 witness: two environments that differ in their load error text but
agree on durations give identical outputs. -/
theorem mixer_duration_deterministic_witness :
    (∀ f, loadView mixEnvLoadFail f = loadView mixEnvLoadFail2 f)
    ∧ mixEnvLoadFail.exportOk = mixEnvLoadFail2.exportOk
    ∧ (PodcastMixer.run mixEnvLoadFail "output/podcast" ["a.mp3", "b.mp3"] 50).2
        = (PodcastMixer.run mixEnvLoadFail2 "output/podcast" ["a.mp3", "b.mp3"] 50).2 :=
  ⟨fun f => rfl, rfl,
   mixer_duration_deterministic mixEnvLoadFail mixEnvLoadFail2 "output/podcast"
     ["a.mp3", "b.mp3"] 50 (fun f => rfl) rfl⟩

end Claims

end PaperToPodcast
